import Mathlib

/-!
Verification of the family-photos membership, reaction, authentication and
gesture logic.  Definitions are shallow embeddings of the request handlers in
`src/app/api/family/**`, the client libraries `src/lib/reactions.ts` and
`src/lib/auth.ts`, the SQL functions of the invitation system, and the
client-side gesture hooks `src/hooks/useClickHandler.ts` and
`src/hooks/useDoubleTap.ts`.  The data stores are modelled as lists of rows;
the data-layer behaviour (PostgREST `.single()`, declared uniqueness
constraints) follows the schema in the repository's SQL files.
-/

/-- Status values allowed by the `family_members_status_check` constraint. -/
inductive FmStatus where
  | pending
  | active
  | inactive
  | invited
deriving DecidableEq, Repr

/-- A row of the `family_members` table (schema from the database-integrity
SQL script). -/
structure FamilyMember where
  id : Nat
  user_id : Option Nat
  email : String
  status : FmStatus
  invited_at : Nat
  accepted_at : Option Nat
  invitation_token : Nat
  invited_by : Option Nat
deriving DecidableEq, Repr

/-- A row of the `profiles` table (columns used by the invitation system). -/
structure Profile where
  id : Nat
  email : String
  full_name : Option String
  created_at : Nat
deriving DecidableEq, Repr

/-- Column sets with a declared uniqueness constraint on `family_members`:
only the primary key.  The schema declares no UNIQUE constraint on `email`. -/
def familyMembersUniqueColumns : List (List String) := [["id"]]

/-- Column sets with a declared uniqueness constraint on `reactions`:
the primary key and `UNIQUE(photo_id, user_id)`. -/
def reactionsUniqueColumns : List (List String) := [["id"], ["photo_id", "user_id"]]

/-- Lowercasing as in JavaScript's `toLowerCase()`, written over the
character list so that it reduces definitionally. -/
def lowercase (s : String) : String := String.mk (s.data.map Char.toLower)

/-- Split a character list on a separator character (the char-list analogue of
the string split used to state the email regexp). -/
def splitOnChar (sep : Char) : List Char → List (List Char)
  | [] => [[]]
  | c :: rest =>
      if c = sep then [] :: splitOnChar sep rest
      else
        match splitOnChar sep rest with
        | r :: rs => (c :: r) :: rs
        | [] => [[c]]

/-- Characters accepted by each part of the invite route's email regexp
`[^\s@]+`: anything that is not whitespace and not `@`. -/
def isEmailChar (c : Char) : Bool := !c.isWhitespace && c != '@'

/-- The domain part of the regexp must factor as `[^\s@]+ \. [^\s@]+`:
some dot neither first nor last. -/
def domainOk (cs : List Char) : Bool :=
  (List.range cs.length).any (fun i => cs.getD i ' ' == '.' && decide (0 < i) && decide (i + 1 < cs.length))

/-- Embedding of the invite route's email validation
`/^[^\s@]+@[^\s@]+\.[^\s@]+$/`: exactly one `@`, a nonempty local part, and a
domain containing an interior dot, with no whitespace anywhere. -/
def emailValid (s : String) : Bool :=
  match splitOnChar '@' s.data with
  | [l, d] =>
      !l.isEmpty && l.all isEmailChar &&
      !d.isEmpty && d.all isEmailChar &&
      domainOk d
  | _ => false

/-- The rows matched by the handlers' active-membership query
(`user_id = u` and `status = 'active'`). -/
def activeRowsFor (u : Nat) (fms : List FamilyMember) : List FamilyMember :=
  fms.filter (fun m => decide (m.user_id = some u ∧ m.status = FmStatus.active))

/-- The handlers' access check: the `.single()` query succeeds only when
exactly one matching row exists. -/
def isActiveMemberSingle (u : Nat) (fms : List FamilyMember) : Bool :=
  decide ((activeRowsFor u fms).length = 1)

/-- Rows matched by the invite route's duplicate check (`email = e`). -/
def findByEmail (e : String) (fms : List FamilyMember) : List FamilyMember :=
  fms.filter (fun m => decide (m.email = e))

/-- Rows matched by the removal route's fetch (`id = i`). -/
def findById (i : Nat) (fms : List FamilyMember) : List FamilyMember :=
  fms.filter (fun m => decide (m.id = i))

/-- Outcome of `GET /api/family`.  The success payload carries the member
rows and the computed stats; the ordering of the returned list by
`invited_at` is not modelled. -/
inductive FamilyGetResult where
  | unauthorized
  | accessDenied
  | ok (members : List FamilyMember) (total active invited : Nat)
deriving DecidableEq, Repr

/-- Embedding of the `GET /api/family` handler: authentication check, then
active-membership check, then the member list and stats. -/
def familyGET (auth : Option Nat) (fms : List FamilyMember) : FamilyGetResult :=
  match auth with
  | none => .unauthorized
  | some u =>
      if isActiveMemberSingle u fms then
        .ok fms fms.length
          (fms.countP (fun m => decide (m.status = FmStatus.active)))
          (fms.countP (fun m => decide (m.status = FmStatus.invited)))
      else .accessDenied

/-- HTTP status attached to each `GET /api/family` outcome. -/
def familyGetStatus : FamilyGetResult → Nat
  | .unauthorized => 401
  | .accessDenied => 403
  | .ok _ _ _ _ => 200

/-- Outcome of `POST /api/family/invite`. -/
inductive InviteResult where
  | unauthorized
  | accessDenied
  | invalidEmail
  | alreadyInvited
  | alreadyActive
  | created (m : FamilyMember)
deriving DecidableEq, Repr

/-- Embedding of the `POST /api/family/invite` handler.  The duplicate check
is a `.single()` query by lowercased email; a `.single()` failure (0 or ≥ 2
rows, PostgREST code PGRST116) leaves `existingMember` null, so those cases
fall through to the insert, as does an existing row whose status is neither
`invited` nor `active`.  The insert succeeds because the schema declares no
uniqueness constraint on `email`. -/
def familyInvitePOST (auth : Option Nat) (email : String) (now newId tok : Nat)
    (fms : List FamilyMember) : InviteResult × List FamilyMember :=
  match auth with
  | none => (.unauthorized, fms)
  | some u =>
      if isActiveMemberSingle u fms then
        if emailValid email then
          let e := lowercase email
          let newRow : FamilyMember :=
            { id := newId, user_id := none, email := e, status := .invited,
              invited_at := now, accepted_at := none, invitation_token := tok,
              invited_by := some u }
          match findByEmail e fms with
          | [m] =>
              if m.status = FmStatus.invited then (.alreadyInvited, fms)
              else if m.status = FmStatus.active then (.alreadyActive, fms)
              else (.created newRow, fms ++ [newRow])
          | _ => (.created newRow, fms ++ [newRow])
        else (.invalidEmail, fms)
      else (.accessDenied, fms)

/-- HTTP status attached to each invite outcome. -/
def inviteStatus : InviteResult → Nat
  | .unauthorized => 401
  | .accessDenied => 403
  | .invalidEmail => 400
  | .alreadyInvited => 400
  | .alreadyActive => 400
  | .created _ => 201

/-- Outcome of `DELETE /api/family/[id]`; `removed` records whether the prior
status was `invited` (which only changes the success message). -/
inductive RemoveResult where
  | unauthorized
  | accessDenied
  | notFound
  | cannotRemoveSelf
  | removed (wasInvited : Bool)
deriving DecidableEq, Repr

/-- Embedding of the `DELETE /api/family/[id]` handler: authentication, the
active-membership check, a `.single()` fetch of the target row (0 or ≥ 2 rows
give 404), the self-removal guard, then deletion of all rows with that id. -/
def familyMemberDELETE (auth : Option Nat) (targetId : Nat)
    (fms : List FamilyMember) : RemoveResult × List FamilyMember :=
  match auth with
  | none => (.unauthorized, fms)
  | some u =>
      if isActiveMemberSingle u fms then
        match findById targetId fms with
        | [m] =>
            if m.user_id = some u then (.cannotRemoveSelf, fms)
            else (.removed (decide (m.status = FmStatus.invited)),
              fms.filter (fun x => decide (x.id ≠ targetId)))
        | _ => (.notFound, fms)
      else (.accessDenied, fms)

/-- HTTP status attached to each removal outcome. -/
def removeStatus : RemoveResult → Nat
  | .unauthorized => 401
  | .accessDenied => 403
  | .notFound => 404
  | .cannotRemoveSelf => 400
  | .removed _ => 200

/-- A row of the `reactions` table. -/
structure Reaction where
  id : Nat
  photo_id : Nat
  user_id : Nat
  emoji : String
  created_at : Nat
  updated_at : Nat
deriving DecidableEq, Repr

/-- The key predicate of a reaction row: it belongs to photo `p` and user `u`. -/
def reactionKey (p u : Nat) (r : Reaction) : Bool :=
  decide (r.photo_id = p ∧ r.user_id = u)

/-- Rows matched by the reaction queries filtering on `photo_id` and `user_id`. -/
def findReaction (p u : Nat) (s : List Reaction) : List Reaction :=
  s.filter (reactionKey p u)

/-- Embedding of `getUserReaction`: the `.single()` lookup returns a row only
when exactly one matches; otherwise the caller sees null. -/
def getUserReaction (p u : Nat) (s : List Reaction) : Option Reaction :=
  match findReaction p u s with
  | [r] => some r
  | _ => none

/-- Embedding of `removeReaction`: delete every row of the pair `(p, u)`. -/
def removeReaction (p u : Nat) (s : List Reaction) : List Reaction :=
  s.filter (fun r => !(reactionKey p u r))

/-- Outcome of `addOrUpdateReaction`: a normal result carrying the stored row,
the special `REACTION_REMOVED` signal, or a data-layer uniqueness failure. -/
inductive ReactResult where
  | reacted (r : Reaction)
  | removed
  | insertConflict
deriving DecidableEq, Repr

/-- Embedding of `addOrUpdateReaction`: look up the caller's reaction with
`.single()`; if found with the same emoji, delete it and signal
`REACTION_REMOVED`; with a different emoji, update that row (matched by id)
in place; when the lookup yields no single row, insert — which the declared
`UNIQUE(photo_id, user_id)` constraint rejects if rows for the pair exist. -/
def addOrUpdateReaction (p u : Nat) (e : String) (now newId : Nat)
    (s : List Reaction) : ReactResult × List Reaction :=
  match findReaction p u s with
  | [r] =>
      if r.emoji = e then (.removed, removeReaction p u s)
      else
        (.reacted { r with emoji := e, updated_at := now },
          s.map (fun x => if x.id = r.id then { x with emoji := e, updated_at := now } else x))
  | [] =>
      let nr : Reaction :=
        { id := newId, photo_id := p, user_id := u, emoji := e,
          created_at := now, updated_at := now }
      (.reacted nr, s ++ [nr])
  | _ => (.insertConflict, s)

/-- Embedding of the SQL function `is_email_invited`: a `family_members` row
exists with this email and status `invited` or `active`. -/
def is_email_invited (e : String) (fms : List FamilyMember) : Bool :=
  fms.any (fun m => decide (m.email = e ∧ (m.status = FmStatus.invited ∨ m.status = FmStatus.active)))

/-- The guard of `handle_new_user_signup`: some row has this email with
status `invited`. -/
def emailHasInvited (e : String) (fms : List FamilyMember) : Bool :=
  fms.any (fun m => decide (m.email = e ∧ m.status = FmStatus.invited))

/-- The UPDATE of `handle_new_user_signup`: every invited row of this email
gets the new identity, status `active` and `accepted_at = now`. -/
def acceptInvitedRows (e : String) (uid now : Nat) (fms : List FamilyMember) : List FamilyMember :=
  fms.map (fun m =>
    if m.email = e ∧ m.status = FmStatus.invited then
      { m with user_id := some uid, status := FmStatus.active, accepted_at := some now }
    else m)

/-- The profile upsert of `handle_new_user_signup`:
`INSERT ... ON CONFLICT (id) DO UPDATE` — on conflict the email is replaced
and the full name falls back to the stored one when the new one is null. -/
def upsertProfile (uid : Nat) (e : String) (fullName : Option String) (now : Nat)
    (ps : List Profile) : List Profile :=
  if ps.any (fun p => decide (p.id = uid)) then
    ps.map (fun p =>
      if p.id = uid then
        { p with
          email := e,
          full_name := (match fullName with | some f => some f | none => p.full_name) }
      else p)
  else ps ++ [{ id := uid, email := e, full_name := fullName, created_at := now }]

/-- Embedding of the SQL function `handle_new_user_signup` (the
`acceptOnLogin` step): when an invited row exists for the email, activate the
invited rows and upsert the profile; otherwise only raise a notice and leave
both tables unchanged. -/
def handle_new_user_signup (uid : Nat) (e : String) (fullName : Option String)
    (now : Nat) (fms : List FamilyMember) (ps : List Profile) :
    List FamilyMember × List Profile :=
  if emailHasInvited e fms then
    (acceptInvitedRows e uid now fms, upsertProfile uid e fullName now ps)
  else (fms, ps)

/-- Outcome of `signInWithMagicLink`. -/
inductive SignInOutcome where
  | notInvited
  | magicLinkSent
deriving DecidableEq, Repr

/-- Embedding of `signInWithMagicLink` from `src/lib/auth.ts`: check
`is_email_invited` on the lowercased email; only when it holds is a one-time
login email dispatched.  The second component records whether an OTP dispatch
was attempted; rpc and auth transport failures are abstracted away. -/
def signInWithMagicLink (email : String) (fms : List FamilyMember) :
    SignInOutcome × Bool :=
  if is_email_invited (lowercase email) fms then (.magicLinkSent, true)
  else (.notInvited, false)

/-- Touch events fed to the `useClickHandler` machine, each carrying a
timestamp and a position. -/
inductive TouchEvent where
  | touchStart (t x y : Int)
  | touchMove (t x y : Int)
  | touchEnd (t x y : Int)
deriving DecidableEq, Repr

/-- The callbacks a gesture run can fire. -/
inductive GestureOutput where
  | single
  | double
deriving DecidableEq, Repr

/-- The mutable refs of `useClickHandler`: the click counter, the first click
time, the pending timeout (deadline and whether its callback re-checks the
click count — the first-tap timeout does, the reset timeouts fire
unconditionally), the touch-start info with its moved flag, and the
scrolling flag. -/
structure ClickState where
  clickCount : Nat
  firstClickTime : Int
  timer : Option (Int × Bool)
  touchInfo : Option (Int × Int × Bool)
  scrolling : Bool
deriving DecidableEq, Repr

/-- Initial refs of `useClickHandler`. -/
def initClickState : ClickState :=
  { clickCount := 0, firstClickTime := 0, timer := none, touchInfo := none, scrolling := false }

/-- A pending timeout whose deadline has passed fires before the next event is
handled: the first-tap callback emits `single` only when the click count is
still 1, the reset callbacks emit unconditionally; both zero the count. -/
def fireDueTimer (t : Int) (st : ClickState) (out : List GestureOutput) :
    ClickState × List GestureOutput :=
  match st.timer with
  | some (d, check) =>
      if d ≤ t then
        ({ st with clickCount := 0, timer := none },
          if !check || st.clickCount = 1 then out ++ [.single] else out)
      else (st, out)
  | none => (st, out)

/-- One step of the `useClickHandler` touch machine (`handleTouchStart`,
`handleTouchMove`, `handleTouchEnd`); distances are compared squared, which
agrees with the source's square-root comparison. -/
def clickStep (delay threshold : Int) (st : ClickState) (out : List GestureOutput) :
    TouchEvent → ClickState × List GestureOutput
  | .touchStart t x y =>
      let p := fireDueTimer t st out
      ({ p.1 with touchInfo := some (x, y, false), scrolling := false }, p.2)
  | .touchMove t x y =>
      let p := fireDueTimer t st out
      match p.1.touchInfo with
      | some (sx, sy, _) =>
          if (x - sx) * (x - sx) + (y - sy) * (y - sy) > threshold * threshold then
            ({ p.1 with touchInfo := some (sx, sy, true), scrolling := true }, p.2)
          else p
      | none => p
  | .touchEnd t _ _ =>
      let p := fireDueTimer t st out
      match p.1.touchInfo with
      | none => ({ p.1 with touchInfo := none }, p.2)
      | some (_, _, mv) =>
          if p.1.scrolling || mv then ({ p.1 with touchInfo := none }, p.2)
          else
            let c := p.1.clickCount + 1
            if c = 1 then
              ({ p.1 with
                 clickCount := 1, firstClickTime := t,
                 timer := some (t + delay, true), touchInfo := none }, p.2)
            else if c = 2 then
              if t - p.1.firstClickTime ≤ delay then
                ({ p.1 with clickCount := 0, timer := none, touchInfo := none },
                  p.2 ++ [.double])
              else
                ({ p.1 with
                   clickCount := 1, firstClickTime := t,
                   timer := some (t + delay, false), touchInfo := none }, p.2)
            else
              ({ p.1 with
                 clickCount := 1, firstClickTime := t,
                 timer := some (t + delay, false), touchInfo := none }, p.2)

/-- Run the `useClickHandler` touch machine over an event stream; after the
stream any still-pending timeout eventually fires. -/
def runClickGesture (delay threshold : Int) (events : List TouchEvent) :
    List GestureOutput :=
  let p := events.foldl (fun acc ev => clickStep delay threshold acc.1 acc.2 ev)
    (initClickState, ([] : List GestureOutput))
  match p.1.timer with
  | some (_, check) =>
      if !check || p.1.clickCount = 1 then p.2 ++ [.single] else p.2
  | none => p.2

/-- The mutable refs of `useDoubleTap`: the click counter, the last tap
(position and time) and the pending single-tap timeout deadline. -/
structure TapState where
  clickCount : Nat
  lastTap : Option (Int × Int × Int)
  timer : Option Int
deriving DecidableEq, Repr

/-- Initial refs of `useDoubleTap`. -/
def initTapState : TapState := { clickCount := 0, lastTap := none, timer := none }

/-- A due `useDoubleTap` timeout fires before the next tap is handled: it
emits `single` when the count is still 1 and resets count, last tap and
timer. -/
def tapFireDue (t : Int) (st : TapState) (out : List GestureOutput) :
    TapState × List GestureOutput :=
  match st.timer with
  | some d =>
      if d ≤ t then
        ({ clickCount := 0, lastTap := none, timer := none },
          if st.clickCount = 1 then out ++ [.single] else out)
      else (st, out)
  | none => (st, out)

/-- One `handleTap` of `useDoubleTap`: a tap within `delay` (strict) and
within `threshold` (strict, compared squared) of the stored last tap fires
`double` and resets; otherwise the tap is stored, the count incremented, and
a fresh single-tap timeout set. -/
def tapStep (delay threshold : Int) (st : TapState) (out : List GestureOutput)
    (t x y : Int) : TapState × List GestureOutput :=
  let p := tapFireDue t st out
  match p.1.lastTap with
  | some (lx, ly, lt) =>
      if t - lt < delay ∧ (x - lx) * (x - lx) + (y - ly) * (y - ly) < threshold * threshold then
        ({ clickCount := 0, lastTap := none, timer := none }, p.2 ++ [.double])
      else
        ({ clickCount := p.1.clickCount + 1, lastTap := some (x, y, t),
           timer := some (t + delay) }, p.2)
  | none =>
      ({ clickCount := p.1.clickCount + 1, lastTap := some (x, y, t),
         timer := some (t + delay) }, p.2)

/-- Run the `useDoubleTap` machine over a list of taps `(t, x, y)`; after the
stream any still-pending timeout eventually fires. -/
def runTapGesture (delay threshold : Int) (taps : List (Int × Int × Int)) :
    List GestureOutput :=
  let p := taps.foldl (fun acc tap => tapStep delay threshold acc.1 acc.2 tap.1 tap.2.1 tap.2.2)
    (initTapState, ([] : List GestureOutput))
  match p.1.timer with
  | some _ => if p.1.clickCount = 1 then p.2 ++ [.single] else p.2
  | none => p.2

/-- Shared concrete rows for witnesses: an active caller, an invited record,
and an inactive record. -/
def fmCaller : FamilyMember :=
  { id := 1, user_id := some 9, email := "c@d.e", status := .active,
    invited_at := 0, accepted_at := some 1, invitation_token := 12, invited_by := none }

def fmInvited : FamilyMember :=
  { id := 2, user_id := none, email := "a@b.c", status := .invited,
    invited_at := 0, accepted_at := none, invitation_token := 11, invited_by := some 9 }

def fmInactive : FamilyMember :=
  { id := 3, user_id := some 5, email := "a@b.c", status := .inactive,
    invited_at := 0, accepted_at := none, invitation_token := 13, invited_by := none }

/-- C1: each protected family-management handler (GET /api/family,
POST /api/family/invite, DELETE /api/family/[id]) answers 401 Unauthorized
when the request carries no identity and 403 AccessDenied when the identity
has no active `family_members` row; in both cases the store is returned
unchanged (no mutation) and the outcome carries no family data. -/
theorem family_endpoints_gate (email : String) (targetId now newId tok u : Nat)
    (fms : List FamilyMember) (h : activeRowsFor u fms = []) :
    familyGET none fms = FamilyGetResult.unauthorized
    ∧ familyGetStatus (familyGET none fms) = 401
    ∧ familyInvitePOST none email now newId tok fms = (InviteResult.unauthorized, fms)
    ∧ inviteStatus (familyInvitePOST none email now newId tok fms).1 = 401
    ∧ familyMemberDELETE none targetId fms = (RemoveResult.unauthorized, fms)
    ∧ removeStatus (familyMemberDELETE none targetId fms).1 = 401
    ∧ familyGET (some u) fms = FamilyGetResult.accessDenied
    ∧ familyGetStatus (familyGET (some u) fms) = 403
    ∧ familyInvitePOST (some u) email now newId tok fms = (InviteResult.accessDenied, fms)
    ∧ inviteStatus (familyInvitePOST (some u) email now newId tok fms).1 = 403
    ∧ familyMemberDELETE (some u) targetId fms = (RemoveResult.accessDenied, fms)
    ∧ removeStatus (familyMemberDELETE (some u) targetId fms).1 = 403 := by
  have hs : isActiveMemberSingle u fms = false := by
    simp [isActiveMemberSingle, h]
  simp [familyGET, familyInvitePOST, familyMemberDELETE, familyGetStatus,
    inviteStatus, removeStatus, hs]

/-- C1 witness: the gate theorem applied to the empty store and identity 1. -/
theorem family_endpoints_gate_witness :
    familyGET none [] = FamilyGetResult.unauthorized
    ∧ familyGetStatus (familyGET none []) = 401
    ∧ familyInvitePOST none "a@b.c" 0 1 2 [] = (InviteResult.unauthorized, [])
    ∧ inviteStatus (familyInvitePOST none "a@b.c" 0 1 2 []).1 = 401
    ∧ familyMemberDELETE none 0 [] = (RemoveResult.unauthorized, [])
    ∧ removeStatus (familyMemberDELETE none 0 []).1 = 401
    ∧ familyGET (some 1) [] = FamilyGetResult.accessDenied
    ∧ familyGetStatus (familyGET (some 1) []) = 403
    ∧ familyInvitePOST (some 1) "a@b.c" 0 1 2 [] = (InviteResult.accessDenied, [])
    ∧ inviteStatus (familyInvitePOST (some 1) "a@b.c" 0 1 2 []).1 = 403
    ∧ familyMemberDELETE (some 1) 0 [] = (RemoveResult.accessDenied, [])
    ∧ removeStatus (familyMemberDELETE (some 1) 0 []).1 = 403 :=
  family_endpoints_gate "a@b.c" 0 0 1 2 1 [] rfl

/-- C2: when the normalized email already has its (unique) record in status
`invited` or `active`, a second invite by an active member fails with the
duplicate-invitation error (`alreadyInvited` / `alreadyActive`, the spec's
Conflict outcome, HTTP 400 in the code) and inserts no new row. -/
theorem invite_duplicate_conflict (u : Nat) (email : String) (now newId tok : Nat)
    (fms : List FamilyMember) (m : FamilyMember)
    (hact : isActiveMemberSingle u fms = true)
    (hval : emailValid email = true)
    (hfind : findByEmail (lowercase email) fms = [m])
    (hst : m.status = FmStatus.invited ∨ m.status = FmStatus.active) :
    ((familyInvitePOST (some u) email now newId tok fms).1 = InviteResult.alreadyInvited
      ∨ (familyInvitePOST (some u) email now newId tok fms).1 = InviteResult.alreadyActive)
    ∧ (familyInvitePOST (some u) email now newId tok fms).2 = fms := by
  rcases hst with h | h
  · simp [familyInvitePOST, hact, hval, hfind, h]
  · simp [familyInvitePOST, hact, hval, hfind, h]

/-- C2 witness: re-inviting the already-invited email `a@b.c`. -/
theorem invite_duplicate_conflict_witness :
    ((familyInvitePOST (some 9) "a@b.c" 5 3 4 [fmCaller, fmInvited]).1 = InviteResult.alreadyInvited
      ∨ (familyInvitePOST (some 9) "a@b.c" 5 3 4 [fmCaller, fmInvited]).1 = InviteResult.alreadyActive)
    ∧ (familyInvitePOST (some 9) "a@b.c" 5 3 4 [fmCaller, fmInvited]).2 = [fmCaller, fmInvited] :=
  invite_duplicate_conflict 9 "a@b.c" 5 3 4 [fmCaller, fmInvited] fmInvited
    (by decide) (by decide) (by decide) (Or.inl (by decide))

/-- C4: removing a member whose `user_id` equals the caller's identity fails
with the self-removal error (the spec's Forbidden outcome; HTTP 400 in the
code), whatever the target's status, and the store is unchanged. -/
theorem cancelOrRemove_self_forbidden (u targetId : Nat) (fms : List FamilyMember)
    (m : FamilyMember)
    (hact : isActiveMemberSingle u fms = true)
    (hfind : findById targetId fms = [m])
    (hself : m.user_id = some u) :
    familyMemberDELETE (some u) targetId fms = (RemoveResult.cannotRemoveSelf, fms) := by
  simp [familyMemberDELETE, hact, hfind, hself]

/-- C4 witness: the active caller tries to remove their own row. -/
theorem cancelOrRemove_self_forbidden_witness :
    familyMemberDELETE (some 9) 1 [fmCaller, fmInvited]
      = (RemoveResult.cannotRemoveSelf, [fmCaller, fmInvited]) :=
  cancelOrRemove_self_forbidden 9 1 [fmCaller, fmInvited] fmCaller
    (by decide) (by decide) (by decide)

/-- When the stored emails are pairwise distinct, the invite route's
duplicate-check query matches at most one row. -/
theorem findByEmail_length_le_one (fms : List FamilyMember) (e : String)
    (h : (fms.map (fun m => m.email)).Nodup) :
    (findByEmail e fms).length ≤ 1 := by
  induction fms with
  | nil => simp [findByEmail]
  | cons a l ih =>
      simp only [List.map_cons, List.nodup_cons] at h
      by_cases hae : a.email = e
      · have hnil : findByEmail e l = [] := by
          rw [findByEmail, List.filter_eq_nil_iff]
          intro m hm
          simp only [decide_eq_true_eq]
          intro hme
          exact h.1 (List.mem_map.mpr ⟨m, hm, by rw [hme, hae]⟩)
        have hcons : findByEmail e (a :: l) = a :: findByEmail e l := by
          simp [findByEmail, List.filter_cons, hae]
        rw [hcons, hnil]
        simp
      · have hcons : findByEmail e (a :: l) = findByEmail e l := by
          simp [findByEmail, List.filter_cons, hae]
        rw [hcons]
        exact ih h.2

/-- The store used for the C3 counterexample: an active caller and an
inactive record for `a@b.c`, with pairwise-distinct emails. -/
def dupStateStart : List FamilyMember := [fmCaller, fmInactive]

/-- C3 counterexample: from a store satisfying the at-most-one-record-per-
email invariant, a successful invite of `a@b.c` (whose existing record is
`inactive`) inserts a second row with the same email, and the schema declares
no uniqueness constraint on `family_members.email` that would stop it. -/
theorem invite_email_uniqueness_cex :
    (dupStateStart.map (fun m => m.email)).Nodup
    ∧ ((familyInvitePOST (some 9) "a@b.c" 5 30 31 dupStateStart).2.countP
        (fun m => decide (m.email = "a@b.c")) = 2)
    ∧ ["email"] ∉ familyMembersUniqueColumns := by
  refine ⟨by decide, by decide, by decide⟩

/-- C3 amended: the invite operation preserves the at-most-one-record-per-
normalized-email invariant on every store whose records for the target email
are all `invited` or `active` (the duplicate check catches exactly those);
a record in status `inactive` or `pending` defeats it, and no data-layer
uniqueness constraint on email exists to serialize concurrent writers. -/
theorem invite_preserves_email_uniqueness (u : Nat) (email : String)
    (now newId tok : Nat) (fms : List FamilyMember)
    (hnodup : (fms.map (fun m => m.email)).Nodup)
    (hok : ∀ m ∈ fms, m.email = lowercase email →
      m.status = FmStatus.invited ∨ m.status = FmStatus.active) :
    (((familyInvitePOST (some u) email now newId tok fms).2).map (fun m => m.email)).Nodup
    ∧ ["email"] ∉ familyMembersUniqueColumns := by
  refine ⟨?_, by decide⟩
  cases hact : isActiveMemberSingle u fms with
  | false => simpa [familyInvitePOST, hact] using hnodup
  | true =>
      cases hval : emailValid email with
      | false => simpa [familyInvitePOST, hact, hval] using hnodup
      | true =>
          have hle := findByEmail_length_le_one fms (lowercase email) hnodup
          rcases hfe : findByEmail (lowercase email) fms with _ | ⟨m, rest⟩
          · have hnotin : lowercase email ∉ fms.map (fun m => m.email) := by
              rw [findByEmail, List.filter_eq_nil_iff] at hfe
              intro hmem
              rcases List.mem_map.mp hmem with ⟨x, hx, hxe⟩
              exact hfe x hx (by simp [hxe])
            simp [familyInvitePOST, hact, hval, hfe, List.nodup_append, hnodup, hnotin]
          · rcases rest with _ | ⟨m2, rest2⟩
            · have hm : m ∈ fms ∧ m.email = lowercase email := by
                have : m ∈ findByEmail (lowercase email) fms := by rw [hfe]; exact List.mem_singleton.mpr rfl
                rw [findByEmail, List.mem_filter] at this
                exact ⟨this.1, by simpa using this.2⟩
              rcases hok m hm.1 hm.2 with h | h
              · simpa [familyInvitePOST, hact, hval, hfe, h] using hnodup
              · simpa [familyInvitePOST, hact, hval, hfe, h] using hnodup
            · rw [hfe] at hle
              simp at hle

/-- C3 amended witness: re-inviting the invited email leaves the store, and
hence the invariant, intact. -/
theorem invite_preserves_email_uniqueness_witness :
    ((((familyInvitePOST (some 9) "a@b.c" 5 3 4 [fmCaller, fmInvited]).2).map
        (fun m => m.email)).Nodup)
    ∧ ["email"] ∉ familyMembersUniqueColumns :=
  invite_preserves_email_uniqueness 9 "a@b.c" 5 3 4 [fmCaller, fmInvited]
    (by decide) (by decide)


/-- The row `addOrUpdateReaction` inserts when no prior reaction exists. -/
def mkReaction (p u : Nat) (e : String) (now newId : Nat) : Reaction :=
  { id := newId, photo_id := p, user_id := u, emoji := e,
    created_at := now, updated_at := now }

/-- The key check holds for the row that `addOrUpdateReaction` inserts. -/
theorem reactionKey_insert (p u : Nat) (e : String) (now newId : Nat) :
    reactionKey p u (mkReaction p u e now newId) = true := by
  simp [reactionKey, mkReaction]

/-- The in-place emoji update of `addOrUpdateReaction` never changes a row's
`(photo_id, user_id)` key. -/
theorem reactionKey_update (p' u' : Nat) (rid : Nat) (e : String) (now : Nat)
    (x : Reaction) :
    reactionKey p' u' (if x.id = rid then { x with emoji := e, updated_at := now } else x)
      = reactionKey p' u' x := by
  by_cases h : x.id = rid <;> simp [reactionKey, h]

/-- C5: starting from a state with no reaction of user `u` on photo `p`,
`react(p, u, e)` stores exactly one reaction row, a second `react(p, u, e)`
signals the distinct `REACTION_REMOVED` outcome (not a normal `reacted`
result) and deletes the row, returning the `(p, u)` reaction state to none. -/
theorem reaction_toggle_law (p u : Nat) (e : String) (now1 now2 id1 id2 : Nat)
    (s : List Reaction) (h : findReaction p u s = []) :
    addOrUpdateReaction p u e now1 id1 s
      = (ReactResult.reacted (mkReaction p u e now1 id1), s ++ [mkReaction p u e now1 id1])
    ∧ addOrUpdateReaction p u e now2 id2 (s ++ [mkReaction p u e now1 id1])
      = (ReactResult.removed, s)
    ∧ getUserReaction p u
        (addOrUpdateReaction p u e now2 id2 (s ++ [mkReaction p u e now1 id1])).2 = none := by
  have hall : ∀ r ∈ s, reactionKey p u r = false := by
    intro r hr
    have := List.filter_eq_nil_iff.mp h r hr
    simpa using this
  have h2 : findReaction p u (s ++ [mkReaction p u e now1 id1])
      = [mkReaction p u e now1 id1] := by
    rw [findReaction, List.filter_append]
    rw [findReaction] at h
    rw [h]
    simp [reactionKey, mkReaction]
  have hrm : removeReaction p u (s ++ [mkReaction p u e now1 id1]) = s := by
    rw [removeReaction, List.filter_append]
    have hs : s.filter (fun r => !(reactionKey p u r)) = s :=
      List.filter_eq_self.mpr (fun r hr => by simp [hall r hr])
    rw [hs]
    simp [reactionKey, mkReaction]
  have hfirst : addOrUpdateReaction p u e now1 id1 s
      = (ReactResult.reacted (mkReaction p u e now1 id1), s ++ [mkReaction p u e now1 id1]) := by
    rw [addOrUpdateReaction, h]
    simp [mkReaction]
  have hsecond : addOrUpdateReaction p u e now2 id2 (s ++ [mkReaction p u e now1 id1])
      = (ReactResult.removed, s) := by
    rw [addOrUpdateReaction, h2]
    simp only [mkReaction] at hrm ⊢
    simp [hrm]
  refine ⟨hfirst, hsecond, ?_⟩
  rw [hsecond]
  rw [getUserReaction, h]

/-- C5 witness: the toggle law on the empty reaction store. -/
theorem reaction_toggle_law_witness :
    addOrUpdateReaction 1 2 "heart" 10 100 []
      = (ReactResult.reacted (mkReaction 1 2 "heart" 10 100), [mkReaction 1 2 "heart" 10 100])
    ∧ addOrUpdateReaction 1 2 "heart" 20 101 [mkReaction 1 2 "heart" 10 100]
      = (ReactResult.removed, [])
    ∧ getUserReaction 1 2
        (addOrUpdateReaction 1 2 "heart" 20 101 [mkReaction 1 2 "heart" 10 100]).2 = none := by
  have := reaction_toggle_law 1 2 "heart" 10 20 100 101 [] rfl
  simpa using this


/-- Filtering by a reaction key commutes with the in-place emoji update. -/
theorem findReaction_map_update (p' u' : Nat) (rid : Nat) (e : String) (now : Nat)
    (s : List Reaction) :
    findReaction p' u' (s.map (fun x => if x.id = rid then { x with emoji := e, updated_at := now } else x))
      = (findReaction p' u' s).map (fun x => if x.id = rid then { x with emoji := e, updated_at := now } else x) := by
  rw [findReaction, findReaction, List.filter_map]
  congr 1
  exact List.filter_congr (fun x _ => by
    simpa [Function.comp] using reactionKey_update p' u' rid e now x)

/-- C6: on every store with at most one reaction row per `(photo, user)` pair,
`react` with a different emoji updates the existing row in place (same row
count, the pair's single row now carries the new emoji), `react` with the
same emoji deletes the pair's row (row count drops by one), `react` from the
empty state inserts exactly one row — and in every case the at-most-one-row
invariant is preserved. -/
theorem reaction_per_pair_invariant (p u : Nat) (e : String) (now newId : Nat)
    (s : List Reaction)
    (hinv : ∀ p' u', (findReaction p' u' s).length ≤ 1) :
    (∀ r, findReaction p u s = [r] → r.emoji ≠ e →
      ((addOrUpdateReaction p u e now newId s).2.length = s.length
        ∧ findReaction p u (addOrUpdateReaction p u e now newId s).2
            = [{ r with emoji := e, updated_at := now }]))
    ∧ (∀ r, findReaction p u s = [r] → r.emoji = e →
      ((addOrUpdateReaction p u e now newId s).1 = ReactResult.removed
        ∧ findReaction p u (addOrUpdateReaction p u e now newId s).2 = []
        ∧ (addOrUpdateReaction p u e now newId s).2.length + 1 = s.length))
    ∧ (findReaction p u s = [] →
      ((addOrUpdateReaction p u e now newId s).2.length = s.length + 1
        ∧ (findReaction p u (addOrUpdateReaction p u e now newId s).2).length = 1))
    ∧ (∀ p' u', (findReaction p' u' (addOrUpdateReaction p u e now newId s).2).length ≤ 1) := by
  refine ⟨?_, ?_, ?_, ?_⟩
  · intro r hfind hne
    have hres : addOrUpdateReaction p u e now newId s
        = (ReactResult.reacted { r with emoji := e, updated_at := now },
          s.map (fun x => if x.id = r.id then { x with emoji := e, updated_at := now } else x)) := by
      rw [addOrUpdateReaction, hfind]
      simp [hne]
    rw [hres]
    constructor
    · simp
    · rw [findReaction_map_update, hfind]
      simp
  · intro r hfind heq
    have hres : addOrUpdateReaction p u e now newId s
        = (ReactResult.removed, removeReaction p u s) := by
      rw [addOrUpdateReaction, hfind]
      simp [heq]
    rw [hres]
    refine ⟨rfl, ?_, ?_⟩
    · rw [findReaction, removeReaction, List.filter_filter]
      simp
    · have hsplit := List.length_eq_length_filter_add (l := s) (reactionKey p u)
      have hone : (List.filter (reactionKey p u) s).length = 1 := by
        rw [findReaction] at hfind
        rw [hfind]
        rfl
      simp only [removeReaction]
      omega
  · intro hfind
    have hres : addOrUpdateReaction p u e now newId s
        = (ReactResult.reacted (mkReaction p u e now newId), s ++ [mkReaction p u e now newId]) := by
      rw [addOrUpdateReaction, hfind]
      simp [mkReaction]
    rw [hres]
    constructor
    · simp
    · rw [findReaction, List.filter_append]
      rw [findReaction] at hfind
      rw [hfind]
      simp [reactionKey, mkReaction]
  · intro p' u'
    rcases hs : findReaction p u s with _ | ⟨r, rest⟩
    · have hres : addOrUpdateReaction p u e now newId s
          = (ReactResult.reacted (mkReaction p u e now newId), s ++ [mkReaction p u e now newId]) := by
        rw [addOrUpdateReaction, hs]
        simp [mkReaction]
      rw [hres, findReaction, List.filter_append]
      by_cases hk : reactionKey p' u' (mkReaction p u e now newId) = true
      · obtain ⟨rfl, rfl⟩ : p = p' ∧ u = u' := by
          simpa [reactionKey, mkReaction] using hk
        rw [findReaction] at hs
        rw [hs]
        have := List.length_filter_le (reactionKey p u) [mkReaction p u e now newId]
        simpa using this
      · have hnone : List.filter (reactionKey p' u') [mkReaction p u e now newId] = [] := by
          simp only [Bool.not_eq_true] at hk
          simp [List.filter_singleton, hk]
        rw [hnone]
        simpa [findReaction] using hinv p' u'
    · rcases rest with _ | ⟨r2, rest2⟩
      · by_cases he : r.emoji = e
        · have hres : addOrUpdateReaction p u e now newId s
              = (ReactResult.removed, removeReaction p u s) := by
            rw [addOrUpdateReaction, hs]
            simp [he]
          rw [hres]
          have hsub : (findReaction p' u' (removeReaction p u s)).length
              ≤ (findReaction p' u' s).length := by
            rw [findReaction, findReaction, removeReaction,
              ← List.countP_eq_length_filter, ← List.countP_eq_length_filter]
            exact List.Sublist.countP_le _ (List.filter_sublist s)
          exact le_trans hsub (hinv p' u')
        · have hres : addOrUpdateReaction p u e now newId s
              = (ReactResult.reacted { r with emoji := e, updated_at := now },
                s.map (fun x => if x.id = r.id then { x with emoji := e, updated_at := now } else x)) := by
            rw [addOrUpdateReaction, hs]
            simp [he]
          rw [hres]
          have := findReaction_map_update p' u' r.id e now s
          rw [this]
          simpa using hinv p' u'
      · have hres : addOrUpdateReaction p u e now newId s
            = (ReactResult.insertConflict, s) := by
          rw [addOrUpdateReaction, hs]
        rw [hres]
        exact hinv p' u'

/-- C6 witness: the invariant theorem applied to a one-row store. -/
theorem reaction_per_pair_invariant_witness :
    ((addOrUpdateReaction 1 2 "up" 30 102 [mkReaction 1 2 "heart" 10 100]).2.length
        = [mkReaction 1 2 "heart" 10 100].length
      ∧ findReaction 1 2 (addOrUpdateReaction 1 2 "up" 30 102 [mkReaction 1 2 "heart" 10 100]).2
          = [{ mkReaction 1 2 "heart" 10 100 with emoji := "up", updated_at := 30 }])
    ∧ (∀ p' u', (findReaction p' u'
        (addOrUpdateReaction 1 2 "up" 30 102 [mkReaction 1 2 "heart" 10 100]).2).length ≤ 1) := by
  have h := reaction_per_pair_invariant 1 2 "up" 30 102 [mkReaction 1 2 "heart" 10 100]
    (by intro p' u'; simp only [findReaction]; exact List.length_filter_le _ _)
  exact ⟨h.1 (mkReaction 1 2 "heart" 10 100) (by decide) (by decide), h.2.2.2⟩

/-- A map whose function fixes every element of the list is the identity. -/
theorem map_fixed_eq_self {α : Type} (l : List α) (f : α → α) (h : ∀ a ∈ l, f a = a) :
    l.map f = l := by
  induction l with
  | nil => rfl
  | cons a t ih =>
      simp only [List.map_cons]
      rw [h a (List.mem_cons_self a t), ih (fun x hx => h x (List.mem_cons_of_mem a hx))]

/-- C7 (amended): when an invited row for the email exists, `acceptOnLogin`
sets that row's `user_id` to the identity, its status to `active` and
`accepted_at` to now, and upserts a profile keyed by the identity; when no
invited row exists, both tables are left unchanged, and the Access Gate then
rejects the identity's protected actions whenever the identity has no active
membership row. -/
theorem acceptOnLogin_spec (uid : Nat) (e : String) (fullName : Option String)
    (now : Nat) (pre post : List FamilyMember) (m0 : FamilyMember) (ps : List Profile)
    (hm0e : m0.email = e) (hm0s : m0.status = FmStatus.invited)
    (hothers : ∀ m ∈ pre ++ post, ¬(m.email = e ∧ m.status = FmStatus.invited)) :
    (handle_new_user_signup uid e fullName now (pre ++ m0 :: post) ps).1
      = pre ++ { m0 with user_id := some uid, status := FmStatus.active, accepted_at := some now } :: post
    ∧ (∃ pr ∈ (handle_new_user_signup uid e fullName now (pre ++ m0 :: post) ps).2,
        pr.id = uid ∧ pr.email = e)
    ∧ (∀ fms ps', (∀ m ∈ fms, ¬(m.email = e ∧ m.status = FmStatus.invited)) →
        handle_new_user_signup uid e fullName now fms ps' = (fms, ps')
        ∧ (activeRowsFor uid fms = [] → familyGET (some uid) fms = FamilyGetResult.accessDenied)) := by
  have hinv : emailHasInvited e (pre ++ m0 :: post) = true := by
    rw [emailHasInvited, List.any_eq_true]
    exact ⟨m0, by simp, by simp [hm0e, hm0s]⟩
  refine ⟨?_, ?_, ?_⟩
  · simp only [handle_new_user_signup, hinv, if_true, acceptInvitedRows,
      List.map_append, List.map_cons]
    rw [if_pos ⟨hm0e, hm0s⟩]
    rw [map_fixed_eq_self pre _ (fun m hm =>
      if_neg (hothers m (List.mem_append_left post hm)))]
    rw [map_fixed_eq_self post _ (fun m hm =>
      if_neg (hothers m (List.mem_append_right pre hm)))]
  · simp only [handle_new_user_signup, hinv, if_true, upsertProfile]
    by_cases hex : ps.any (fun p => decide (p.id = uid)) = true
    · rw [if_pos hex]
      rw [List.any_eq_true] at hex
      obtain ⟨p0, hp0, hid⟩ := hex
      simp only [decide_eq_true_eq] at hid
      refine ⟨_, List.mem_map.mpr ⟨p0, hp0, rfl⟩, ?_, ?_⟩
      · rw [if_pos hid]
        exact hid
      · rw [if_pos hid]
    · rw [if_neg hex]
      exact ⟨{ id := uid, email := e, full_name := fullName, created_at := now },
        List.mem_append_right ps (List.mem_singleton.mpr rfl), rfl, rfl⟩
  · intro fms ps' hno
    have hni : emailHasInvited e fms = false := by
      rw [emailHasInvited, List.any_eq_false]
      intro x hx
      simpa using hno x hx
    refine ⟨by simp [handle_new_user_signup, hni], ?_⟩
    intro hact
    simp [familyGET, isActiveMemberSingle, hact]

/-- C7 witness: accepting the invitation of `a@b.c` with identity 5. -/
theorem acceptOnLogin_spec_witness :
    (handle_new_user_signup 5 "a@b.c" none 42 [fmInvited] []).1
      = [{ fmInvited with user_id := some 5, status := FmStatus.active, accepted_at := some 42 }]
    ∧ ∃ pr ∈ (handle_new_user_signup 5 "a@b.c" none 42 [fmInvited] []).2,
        pr.id = 5 ∧ pr.email = "a@b.c" := by
  have h := acceptOnLogin_spec 5 "a@b.c" none 42 [] [] fmInvited []
    (by decide) (by decide) (by simp)
  exact ⟨by simpa using h.1, by simpa using h.2.1⟩

/-- An already-active membership record for `a@b.c`, linked to identity 7. -/
def fmActive : FamilyMember :=
  { id := 4, user_id := some 7, email := "a@b.c", status := .active,
    invited_at := 0, accepted_at := some 1, invitation_token := 14, invited_by := none }

/-- The store used for the C7 counterexample: only an active record. -/
def activeOnlyState : List FamilyMember := [fmActive]

/-- C7 counterexample: for email `a@b.c` and identity 7 there is no invited
row, so `acceptOnLogin` leaves the tables unchanged — but the subsequent
protected action `GET /api/family` succeeds (HTTP 200), because the identity
is already an active member; the Access Gate does not reject it. -/
theorem acceptOnLogin_gate_cex :
    handle_new_user_signup 7 "a@b.c" none 99 activeOnlyState [] = (activeOnlyState, [])
    ∧ familyGetStatus (familyGET (some 7) activeOnlyState) = 200 := by
  refine ⟨by decide, by decide⟩

/-- C8: once every record of the email is `active`, a repeated
`acceptOnLogin` changes neither the membership table (so `accepted_at` is
untouched) nor the profiles table (no duplicate profile row). -/
theorem acceptOnLogin_idempotent (uid : Nat) (e : String) (fullName : Option String)
    (now : Nat) (fms : List FamilyMember) (ps : List Profile) (m : FamilyMember)
    (hm : m ∈ fms) (hme : m.email = e) (hma : m.status = FmStatus.active)
    (hall : ∀ x ∈ fms, x.email = e → x.status = FmStatus.active) :
    handle_new_user_signup uid e fullName now fms ps = (fms, ps) := by
  have hni : emailHasInvited e fms = false := by
    rw [emailHasInvited, List.any_eq_false]
    intro x hx
    simp only [decide_eq_true_eq, not_and]
    intro hxe
    rw [hall x hx hxe]
    decide
  simp [handle_new_user_signup, hni]

/-- C8 witness: a repeated login of the active member `a@b.c`. -/
theorem acceptOnLogin_idempotent_witness :
    handle_new_user_signup 7 "a@b.c" none 123 activeOnlyState [] = (activeOnlyState, []) :=
  acceptOnLogin_idempotent 7 "a@b.c" none 123 activeOnlyState [] fmActive
    (by decide) (by decide) (by decide) (by decide)

/-- C10: `signInWithMagicLink` dispatches a login email exactly when a
`family_members` row exists for the lowercased email in status `invited` or
`active`; when no such row exists it returns the `NOT_INVITED` failure and no
login link is sent. -/
theorem magic_link_only_when_invited (email : String) (fms : List FamilyMember) :
    ((signInWithMagicLink email fms).2 = true
      ↔ ∃ m ∈ fms, m.email = lowercase email
          ∧ (m.status = FmStatus.invited ∨ m.status = FmStatus.active))
    ∧ ((∀ m ∈ fms, ¬(m.email = lowercase email
          ∧ (m.status = FmStatus.invited ∨ m.status = FmStatus.active))) →
        signInWithMagicLink email fms = (SignInOutcome.notInvited, false)) := by
  have hiff : is_email_invited (lowercase email) fms = true
      ↔ ∃ m ∈ fms, m.email = lowercase email
          ∧ (m.status = FmStatus.invited ∨ m.status = FmStatus.active) := by
    rw [is_email_invited, List.any_eq_true]
    constructor
    · intro ⟨x, hx, hp⟩
      exact ⟨x, hx, by simpa using hp⟩
    · intro ⟨x, hx, hp⟩
      exact ⟨x, hx, by simpa using hp⟩
  constructor
  · cases h : is_email_invited (lowercase email) fms with
    | true =>
        rw [signInWithMagicLink, h, if_pos rfl]
        exact ⟨fun _ => hiff.mp h, fun _ => rfl⟩
    | false =>
        rw [signInWithMagicLink, h]
        constructor
        · intro hc
          simp at hc
        · intro hex
          have := hiff.mpr hex
          rw [h] at this
          exact absurd this (by simp)
  · intro hno
    have hni : is_email_invited (lowercase email) fms = false := by
      rw [is_email_invited, List.any_eq_false]
      intro x hx
      simpa using hno x hx
    rw [signInWithMagicLink, hni]
    simp

/-- C10 witness: an empty membership store never gets a magic link. -/
theorem magic_link_only_when_invited_witness :
    signInWithMagicLink "x@y.z" [] = (SignInOutcome.notInvited, false) :=
  (magic_link_only_when_invited "x@y.z" []).2 (by simp)

/-- C9: with the default delay (300ms) and movement threshold (10px), two
presses at the same point under 300ms apart classify as one `double`; the
same two presses 400ms apart classify as two independent `single` outcomes
(on both the click-handler machine and the double-tap machine); and a press
followed by more than 10px of movement before release is suppressed, firing
neither `single` nor `double`. -/
theorem gesture_classification :
    (∀ gap : Int, 0 < gap → gap < 300 →
      runClickGesture 300 10 [TouchEvent.touchStart 0 0 0, TouchEvent.touchEnd 1 0 0,
        TouchEvent.touchStart gap 0 0, TouchEvent.touchEnd (gap + 1) 0 0]
          = [GestureOutput.double]
      ∧ runTapGesture 300 10 [(0, 0, 0), (gap, 0, 0)] = [GestureOutput.double])
    ∧ runClickGesture 300 10 [TouchEvent.touchStart 0 0 0, TouchEvent.touchEnd 1 0 0,
        TouchEvent.touchStart 400 0 0, TouchEvent.touchEnd 401 0 0]
        = [GestureOutput.single, GestureOutput.single]
    ∧ runTapGesture 300 10 [(0, 0, 0), (400, 0, 0)]
        = [GestureOutput.single, GestureOutput.single]
    ∧ (∀ dx dy : Int, dx * dx + dy * dy > 10 * 10 →
      runClickGesture 300 10 [TouchEvent.touchStart 0 0 0, TouchEvent.touchMove 50 dx dy,
        TouchEvent.touchEnd 100 dx dy] = []) := by
  refine ⟨?_, by decide, by decide, ?_⟩
  · intro gap h0 h300
    have h1 : ¬ ((301 : Int) ≤ gap) := by omega
    have h2 : ¬ ((301 : Int) ≤ gap + 1) := by omega
    have h3 : (gap + 1 - 1 : Int) ≤ 300 := by omega
    have h3' : (gap : Int) ≤ 300 := by omega
    have h4 : ¬ ((300 : Int) ≤ gap) := by omega
    have h5 : (gap - 0 : Int) < 300 := by omega
    have h6 : (gap + 1 : Int) ≤ 301 := by omega
    constructor
    · simp [runClickGesture, clickStep, fireDueTimer, initClickState, h1, h2, h3, h3', h6]
    · simp [runTapGesture, tapStep, tapFireDue, initTapState, h4, h5, h300]
  · intro dx dy hmv
    have hmv' : dx * dx + dy * dy > 100 := by simpa using hmv
    simp [runClickGesture, clickStep, fireDueTimer, initClickState, hmv, hmv']

/-- C9 witness: two taps 250ms apart give one `double` on both machines, and
a 15px move before release suppresses the gesture. -/
theorem gesture_classification_witness :
    runClickGesture 300 10 [TouchEvent.touchStart 0 0 0, TouchEvent.touchEnd 1 0 0,
      TouchEvent.touchStart 250 0 0, TouchEvent.touchEnd 251 0 0] = [GestureOutput.double]
    ∧ runTapGesture 300 10 [(0, 0, 0), (250, 0, 0)] = [GestureOutput.double]
    ∧ runClickGesture 300 10 [TouchEvent.touchStart 0 0 0, TouchEvent.touchMove 50 15 0,
      TouchEvent.touchEnd 100 15 0] = [] :=
  ⟨(gesture_classification.1 250 (by decide) (by decide)).1,
    (gesture_classification.1 250 (by decide) (by decide)).2,
    gesture_classification.2.2.2 15 0 (by decide)⟩
